import Mathlib

/-!
Verification of the jhcommon event-dispatch core (Selector, Timer, logging,
FdReaderWriter) against its specification.  The data model and operations are
shallowly embedded: pointers become numeric identities (with `Option` for
nullable ones), machine integers become `Nat`/`Int` with explicit reduction
modulo 2^32 where wrap-around matters, and stateful operations become pure
functions on explicit state records.
-/

namespace JHCommon

/-! ### Poll event bits (sys/poll.h values used by Selector) -/

def POLLIN : Nat := 1
def POLLPRI : Nat := 2
def POLLOUT : Nat := 4
def POLLERR : Nat := 8
def POLLHUP : Nat := 16
def POLLNVAL : Nat := 32

/-! ### Selector listener table -/

/-- Selector::ListenerNode (Selector.h lines 130-167).  `mListener` is a
`SelectorListener*`; a null pointer is `none`, a non-null pointer is `some id`.
`mPrivateData` is the opaque `jh_ptr_int_t` cookie. -/
structure ListenerNode where
  mFd : Int
  mEvents : Nat
  mListener : Option Nat
  mPrivateData : Nat
deriving DecidableEq

/-- Selector::ListenerNode::operator== (Selector.h lines 140-154): the FDs must
match, and if both listeners are non-NULL they must match too. -/
def ListenerNode.eq (a other : ListenerNode) : Bool :=
  if a.mFd = other.mFd ∧
      ((a.mListener = none ∨ other.mListener = none) ∨
        a.mListener = other.mListener) then
    true
  else
    false

/-- One call of SelectorListener::processFileEvents(fd, events, private_data),
together with the identity of the listener called. -/
structure Invocation where
  listener : Option Nat
  fd : Int
  events : Nat
  cookie : Nat
deriving DecidableEq

/-- Modelled from the spec: the body of Selector::callListeners lives in
Selector.cpp, which is not under src/ (Selector.h line 184 only declares it).
Per the spec, callListeners scans the listener table and, for every entry whose
fd matches and whose registered mask intersects the reported bits, or when the
reported bits include ERROR/HANGUP/INVALID, invokes the listener with the
reported bits and the cookie, in registration order. -/
def callListeners (fd : Int) (events : Nat) : List ListenerNode → List Invocation
  | [] => []
  | node :: rest =>
    if node.mFd = fd ∧
        (node.mEvents &&& events ≠ 0 ∨
          events &&& (POLLERR ||| POLLHUP ||| POLLNVAL) ≠ 0) then
      ⟨node.mListener, fd, events, node.mPrivateData⟩ ::
        callListeners fd events rest
    else
      callListeners fd events rest

/-- C1.  For every registered entry and every poll return reporting bits
`events` on `fd`, callListeners produces exactly one invocation per table entry
whose fd matches and whose registered mask intersects the reported bits or
whose reported bits include ERROR, HANGUP or INVALID; in particular those three
conditions are delivered even when absent from the registered mask. -/
theorem callListeners_exact (fd : Int) (events : Nat) (table : List ListenerNode)
    (l : Option Nat) (pd : Nat) :
    (callListeners fd events table).count ⟨l, fd, events, pd⟩ =
      (table.filter (fun node =>
        node.mFd = fd ∧ node.mListener = l ∧ node.mPrivateData = pd ∧
          (node.mEvents &&& events ≠ 0 ∨
            events &&& (POLLERR ||| POLLHUP ||| POLLNVAL) ≠ 0))).length := by
  induction table with
  | nil => simp [callListeners]
  | cons node rest ih =>
    by_cases h : node.mFd = fd ∧
        (node.mEvents &&& events ≠ 0 ∨
          events &&& (POLLERR ||| POLLHUP ||| POLLNVAL) ≠ 0)
    · by_cases hm : node.mListener = l ∧ node.mPrivateData = pd
      · have : (⟨node.mListener, fd, events, node.mPrivateData⟩ : Invocation)
            = ⟨l, fd, events, pd⟩ := by
          rw [hm.1, hm.2]
        simp only [callListeners, if_pos h, List.count_cons, this,
          List.filter_cons]
        have hp : node.mFd = fd ∧ node.mListener = l ∧ node.mPrivateData = pd ∧
            (node.mEvents &&& events ≠ 0 ∨
              events &&& (POLLERR ||| POLLHUP ||| POLLNVAL) ≠ 0) :=
          ⟨h.1, hm.1, hm.2, h.2⟩
        simp [hp, ih, beq_iff_eq]
      · have hne : (⟨node.mListener, fd, events, node.mPrivateData⟩ : Invocation)
            ≠ ⟨l, fd, events, pd⟩ := by
          intro hcontra
          apply hm
          injection hcontra with h1 h2 h3 h4
          exact ⟨h1, h4⟩
        have hp : ¬(node.mFd = fd ∧ node.mListener = l ∧ node.mPrivateData = pd ∧
            (node.mEvents &&& events ≠ 0 ∨
              events &&& (POLLERR ||| POLLHUP ||| POLLNVAL) ≠ 0)) := by
          intro hcontra
          exact hm ⟨hcontra.2.1, hcontra.2.2.1⟩
        simp only [callListeners, if_pos h, List.count_cons, List.filter_cons]
        simp [hne, hp, ih, beq_iff_eq]
    · have hp : ¬(node.mFd = fd ∧ node.mListener = l ∧ node.mPrivateData = pd ∧
          (node.mEvents &&& events ≠ 0 ∨
            events &&& (POLLERR ||| POLLHUP ||| POLLNVAL) ≠ 0)) := by
        intro hcontra
        exact h ⟨hcontra.1, hcontra.2.2.2⟩
      simp only [callListeners, if_neg h, List.filter_cons]
      simp [hp, ih]

/-- C2.  ListenerNode equality holds exactly when the fds match and the
listeners match or either listener is the null sentinel, so a node with a null
listener compares equal to every node with the same fd. -/
theorem listenerNode_eq_iff (a b : ListenerNode) :
    ListenerNode.eq a b = true ↔
      a.mFd = b.mFd ∧
        (a.mListener = b.mListener ∨ a.mListener = none ∨ b.mListener = none) := by
  unfold ListenerNode.eq
  by_cases h : a.mFd = b.mFd ∧
      ((a.mListener = none ∨ b.mListener = none) ∨ a.mListener = b.mListener)
  · simp only [if_pos h]
    constructor
    · intro _
      exact ⟨h.1, h.2.elim (fun hn => Or.inr hn) (fun he => Or.inl he)⟩
    · intro _
      trivial
  · simp only [if_neg h]
    constructor
    · intro hcontra
      exact absurd hcontra (by simp)
    · intro hcontra
      exact absurd
        ⟨hcontra.1, hcontra.2.elim (fun he => Or.inr he) (fun hn => Or.inl hn)⟩ h

end JHCommon

namespace JHCommon

/-! ### Timer -/

/-- Timer::TimerNode (Timer.h lines 189-211).  `mEvent` is a `SmartPtr<Event>`
modelled by the identity of the event or `none`; `mDispatcher` and `mListener`
are nullable pointers modelled by `Option` identities.  `mTick` is the 32-bit
tick at which the node fires, `mRepeatMS` the repeat period (0 for one-shot)
and `mRemainingMS` the accumulated leftover milliseconds of a repeating node. -/
structure TimerNode where
  mEvent : Option Nat
  mDispatcher : Option Nat
  mListener : Option Nat
  mPrivateData : Nat
  mTick : Nat
  mRepeatMS : Nat
  mRemainingMS : Nat
deriving DecidableEq

/-- Modelled from the spec: Timer.cpp (Timer::handleTick) is not under src/
(Timer.h line 220 only declares it).  When a periodic node fires, its next fire
tick advances by periodMs / tickMs ticks, plus one more tick when the carry
accumulated with the sub-tick remainder of periodMs reaches a full tick. -/
def periodicAdvance (periodMs tickMs carryMs : Nat) : Nat :=
  periodMs / tickMs + (if tickMs ≤ carryMs + periodMs % tickMs then 1 else 0)

/-- Modelled from the spec: the carry stored back into the periodic node after a
fire, the accumulated sub-tick remainder reduced modulo tickMs. -/
def periodicCarry (periodMs tickMs carryMs : Nat) : Nat :=
  if tickMs ≤ carryMs + periodMs % tickMs then
    carryMs + periodMs % tickMs - tickMs
  else
    carryMs + periodMs % tickMs

/-- Total number of ticks elapsed across k consecutive fires of a periodic node
with period periodMs on a Timer with tick tickMs, starting from carry c. -/
def periodicTotalTicks (periodMs tickMs : Nat) : Nat → Nat → Nat
  | 0, _ => 0
  | k + 1, c =>
    periodicAdvance periodMs tickMs c +
      periodicTotalTicks periodMs tickMs k (periodicCarry periodMs tickMs c)

/-- The carry held by a periodic node after k consecutive fires from carry c. -/
def periodicFinalCarry (periodMs tickMs : Nat) : Nat → Nat → Nat
  | 0, c => c
  | k + 1, c => periodicFinalCarry periodMs tickMs k (periodicCarry periodMs tickMs c)

theorem periodicStep (P T c : Nat) (hT : 0 < T) (hc : c < T) :
    T * periodicAdvance P T c + periodicCarry P T c = P + c ∧
      periodicCarry P T c < T := by
  have h1 := Nat.div_add_mod P T
  have h2 := Nat.mod_lt P hT
  unfold periodicAdvance periodicCarry
  by_cases hb : T ≤ c + P % T
  · simp only [if_pos hb]
    rw [Nat.mul_add, Nat.mul_one]
    omega
  · simp only [if_neg hb]
    rw [Nat.mul_add, Nat.mul_zero]
    omega

theorem periodicInvariant (P T : Nat) (hT : 0 < T) :
    ∀ k c, c < T →
      T * periodicTotalTicks P T k c + periodicFinalCarry P T k c = k * P + c ∧
        periodicFinalCarry P T k c < T := by
  intro k
  induction k with
  | zero =>
    intro c hc
    simp [periodicTotalTicks, periodicFinalCarry, hc]
  | succ n ih =>
    intro c hc
    have hstep := periodicStep P T c hT hc
    have hrec := ih (periodicCarry P T c) hstep.2
    constructor
    · simp only [periodicTotalTicks, periodicFinalCarry]
      rw [Nat.mul_add]
      have hexp : (n + 1) * P = n * P + P := by ring
      omega
    · simpa [periodicFinalCarry] using hrec.2

/-- C3.  Across any K consecutive fires of a periodic node with period P on a
Timer with tick T, re-armed on each fire by advancing P / T ticks plus one when
the accumulated carry reaches a full tick, the total elapsed ticks differ from
K * P / T by at most one. -/
theorem periodicDrift (P T c0 K : Nat) (hT : 0 < T) (hc : c0 < T) :
    K * P / T ≤ periodicTotalTicks P T K c0 ∧
      periodicTotalTicks P T K c0 ≤ K * P / T + 1 := by
  have hinv := periodicInvariant P T hT K c0 hc
  have h3 := Nat.div_add_mod (K * P) T
  have h4 := Nat.mod_lt (K * P) hT
  constructor
  · have hB : T * (K * P / T) < T * (periodicTotalTicks P T K c0 + 1) := by
      rw [Nat.mul_add, Nat.mul_one]
      omega
    exact Nat.lt_succ_iff.mp (Nat.lt_of_mul_lt_mul_left hB)
  · have hB : T * periodicTotalTicks P T K c0 < T * (K * P / T + 1 + 1) := by
      rw [Nat.mul_add, Nat.mul_add, Nat.mul_one]
      omega
    exact Nat.lt_succ_iff.mp (Nat.lt_of_mul_lt_mul_left hB)

/-- Witness for C3 at P = 25, T = 10, c0 = 0, K = 10: the total elapsed ticks
are 25, within one tick of 10 * 25 / 10 = 25. -/
theorem periodicDrift_witness :
    0 < 10 ∧ 0 < 10 ∧
      (10 * 25 / 10 ≤ periodicTotalTicks 25 10 10 0 ∧
        periodicTotalTicks 25 10 10 0 ≤ 10 * 25 / 10 + 1) :=
  ⟨by decide, by decide, periodicDrift 25 10 0 10 (by decide) (by decide)⟩

end JHCommon

namespace JHCommon

/-- Ceiling division on Nat, ceil(a / b). -/
def ceilDiv (a b : Nat) : Nat := (a + b - 1) / b

/-- Modelled from the spec: Timer.cpp (Timer::sendTimedEvent, Timer.h lines
106-108 only declare it) schedules a one-shot node at
currentTick + ceil(delayMs / tickMs). -/
def scheduledTick (enqueueTick delayMs tickMs : Nat) : Nat :=
  enqueueTick + ceilDiv delayMs tickMs

/-- Modelled from the spec: the tick thread sleeps tickMs, increments the tick
counter and fires every node whose scheduled tick has been reached, so a node
enqueued at enqueueTick fires at the first tick strictly after enqueueTick that
is at least its scheduled tick. -/
def oneShotFireTick (enqueueTick delayMs tickMs : Nat) : Nat :=
  max (scheduledTick enqueueTick delayMs tickMs) (enqueueTick + 1)

/-- C4.  A one-shot node scheduled with delay delayMs on a Timer with tick
tickMs fires at a tick between enqueueTick + floor(delayMs / tickMs) and
enqueueTick + ceil(delayMs / tickMs) + 1. -/
theorem oneShotFireTick_bounds (enqueueTick delayMs tickMs : Nat)
    (hT : 0 < tickMs) :
    enqueueTick + delayMs / tickMs ≤ oneShotFireTick enqueueTick delayMs tickMs ∧
      oneShotFireTick enqueueTick delayMs tickMs ≤
        enqueueTick + ceilDiv delayMs tickMs + 1 := by
  have hfc : delayMs / tickMs ≤ ceilDiv delayMs tickMs := by
    apply Nat.div_le_div_right
    omega
  unfold oneShotFireTick scheduledTick
  constructor
  · exact le_trans (Nat.add_le_add_left hfc enqueueTick) (le_max_left _ _)
  · apply max_le
    · omega
    · have h0 : 0 ≤ ceilDiv delayMs tickMs := Nat.zero_le _
      omega

/-- Witness for C4 at enqueueTick = 7, delayMs = 55, tickMs = 10: the fire tick
13 lies between 7 + 5 and 7 + 6 + 1. -/
theorem oneShotFireTick_bounds_witness :
    0 < 10 ∧
      (7 + 55 / 10 ≤ oneShotFireTick 7 55 10 ∧
        oneShotFireTick 7 55 10 ≤ 7 + ceilDiv 55 10 + 1) :=
  ⟨by decide, oneShotFireTick_bounds 7 55 10 (by decide)⟩

/-! ### 32-bit tick counter comparison -/

/-- Unsigned 32-bit subtraction a - b, for operands below 2^32. -/
def usub32 (a b : Nat) : Nat := (a + (4294967296 - b)) % 4294967296

/-- Reinterpretation of an unsigned 32-bit value as a signed int32. -/
def toInt32 (u : Nat) : Int :=
  if u % 4294967296 < 2147483648 then (u % 4294967296 : Nat)
  else (u % 4294967296 : Nat) - 4294967296

/-- Modelled from the spec: Timer.cpp is not under src/ (Timer.h lines 243-244
declare the 32-bit counter mTicks).  Per the spec, the test deciding whether a
node with tick a is due at counter value b is the modular signed-subtraction
comparison (int32)(a - b) <= 0. -/
def tickNotLater (a b : Nat) : Bool := toInt32 (usub32 a b) ≤ 0

/-- C6.  The tick comparison is the wrap-tolerant signed-subtraction test: it
holds exactly when b is at most 2^31 ticks ahead of a modulo 2^32, it is
invariant under shifting both operands by a common offset modulo 2^32 (so
ordering survives 32-bit wrap-around), and it differs from direct unsigned
comparison at a wrap point. -/
theorem tickNotLater_spec (a b : Nat) (ha : a < 4294967296)
    (hb : b < 4294967296) :
    (tickNotLater a b = true ↔ (b + 4294967296 - a) % 4294967296 ≤ 2147483648) ∧
      (∀ d : Nat,
        tickNotLater ((a + d) % 4294967296) ((b + d) % 4294967296) =
          tickNotLater a b) ∧
      (tickNotLater 4294967295 0 = true ∧ ¬(4294967295 ≤ (0 : Nat))) := by
  refine ⟨?_, ?_, by decide, by decide⟩
  · simp only [tickNotLater, toInt32, usub32, decide_eq_true_eq]
    split
    · rename_i hlt
      constructor
      · intro hle
        have hz : (a + (4294967296 - b)) % 4294967296 % 4294967296 = 0 := by
          omega
        omega
      · intro hle
        omega
    · rename_i hge
      constructor
      · intro _
        omega
      · intro _
        push_cast
        omega
  · intro d
    have hsub : usub32 ((a + d) % 4294967296) ((b + d) % 4294967296) =
        usub32 a b := by
      unfold usub32
      omega
    simp [tickNotLater, hsub]

/-- Witness for C6 at a = 4294967290, b = 5: the comparison holds because b is
11 ticks ahead of a across the wrap. -/
theorem tickNotLater_spec_witness :
    4294967290 < 4294967296 ∧ 5 < 4294967296 ∧
      ((tickNotLater 4294967290 5 = true ↔
          (5 + 4294967296 - 4294967290) % 4294967296 ≤ 2147483648) ∧
        (∀ d : Nat,
          tickNotLater ((4294967290 + d) % 4294967296) ((5 + d) % 4294967296) =
            tickNotLater 4294967290 5) ∧
        (tickNotLater 4294967295 0 = true ∧ ¬(4294967295 ≤ (0 : Nat)))) :=
  ⟨by decide, by decide, tickNotLater_spec 4294967290 5 (by decide) (by decide)⟩

end JHCommon

namespace JHCommon

/-- Timer state (Timer.h lines 228-244): whether the Timer is stoppable, whether
the tick thread is running, the pending node list and the tick counter. -/
structure TimerState where
  mStoppable : Bool
  mRunning : Bool
  mList : List TimerNode
  mTicks : Nat
deriving DecidableEq

/-- Modelled from the spec: Timer.cpp (Timer::stop / Timer::doStop, Timer.h
lines 92 and 226 only declare them) is not under src/.  stop does nothing when
the Timer is not stoppable; otherwise it stops the tick thread and discards
every pending node.  The second component lists the nodes fired during the
call, which is always empty: stop never fires a node. -/
def Timer.stop (s : TimerState) : TimerState × List TimerNode :=
  if s.mStoppable then
    ({ s with mRunning := false, mList := [] }, [])
  else
    (s, [])

/-- C7.  On a Timer that is not stoppable, stop is a no-op: the state, the tick
thread and the node list are unchanged and nothing fires.  On a stoppable
Timer, stop discards every pending node and stops the tick thread without
firing any node. -/
theorem timer_stop_spec (s : TimerState) :
    (s.mStoppable = false → Timer.stop s = (s, [])) ∧
      (s.mStoppable = true →
        (Timer.stop s).1.mList = [] ∧ (Timer.stop s).1.mRunning = false ∧
          (Timer.stop s).2 = []) := by
  constructor
  · intro h
    simp [Timer.stop, h]
  · intro h
    simp [Timer.stop, h]

/-- Witness for C7 on a stoppable Timer with two pending nodes: stop empties the
node list, stops the thread and fires nothing. -/
theorem timer_stop_spec_witness :
    (TimerState.mk true true
        [⟨some 1, some 2, none, 0, 10, 0, 0⟩, ⟨none, none, some 3, 4, 20, 5, 1⟩]
        7).mStoppable = true ∧
      ((Timer.stop (TimerState.mk true true
          [⟨some 1, some 2, none, 0, 10, 0, 0⟩, ⟨none, none, some 3, 4, 20, 5, 1⟩]
          7)).1.mList = [] ∧
        (Timer.stop (TimerState.mk true true
          [⟨some 1, some 2, none, 0, 10, 0, 0⟩, ⟨none, none, some 3, 4, 20, 5, 1⟩]
          7)).1.mRunning = false ∧
        (Timer.stop (TimerState.mk true true
          [⟨some 1, some 2, none, 0, 10, 0, 0⟩, ⟨none, none, some 3, 4, 20, 5, 1⟩]
          7)).2 = []) :=
  ⟨rfl, (timer_stop_spec _).2 rfl⟩

/-! ### Selector addListener capacity -/

/-- Error kinds of the specification, section 7. -/
inductive JetHeadErr
  | CAPACITY
  | ALREADY_SHUT_DOWN
  | WRONG_THREAD
  | SYSTEM
deriving DecidableEq

/-- The Selector listener table (Selector.h line 210, JetHead::list of
ListenerNode). -/
structure SelectorState where
  mList : List ListenerNode
deriving DecidableEq

/-- Selector::kMaxPollFds (Selector.h line 178): how many FDs one selector can
poll at once. -/
def kMaxPollFds : Nat := 64

/-- Modelled from the spec: Selector.cpp (the body of Selector::addListener,
Selector.h lines 117-118 only declare it) is not under src/.  Per the spec,
addListener registers a new ListenerNode for (fd, events, listener, cookie) at
the end of the table, and fails with CAPACITY when the table is already full at
kMaxPollFds pollable descriptors. -/
def addListener (s : SelectorState) (fd : Int) (events : Nat)
    (listener : Option Nat) (private_data : Nat) :
    Except JetHeadErr SelectorState :=
  if kMaxPollFds ≤ s.mList.length then
    .error .CAPACITY
  else
    .ok ⟨s.mList ++ [⟨fd, events, listener, private_data⟩]⟩

/-- C5.  On a Selector whose listener table already holds kMaxPollFds (64)
pollable descriptors, a further addListener call fails with CAPACITY and does
not register the entry: the table that would have held the new entry is never
produced. -/
theorem addListener_capacity (s : SelectorState) (fd : Int) (events : Nat)
    (listener : Option Nat) (private_data : Nat)
    (h : s.mList.length = kMaxPollFds) :
    addListener s fd events listener private_data = .error .CAPACITY ∧
      ∀ t : SelectorState, addListener s fd events listener private_data ≠ .ok t := by
  have hge : kMaxPollFds ≤ s.mList.length := le_of_eq h.symm
  constructor
  · simp [addListener, hge]
  · intro t
    simp [addListener, hge]

/-- Witness for C5 on a table of exactly 64 entries. -/
theorem addListener_capacity_witness :
    (SelectorState.mk (List.replicate 64 ⟨0, 1, some 9, 0⟩)).mList.length =
        kMaxPollFds ∧
      (addListener (SelectorState.mk (List.replicate 64 ⟨0, 1, some 9, 0⟩))
          3 1 (some 5) 0 = .error .CAPACITY ∧
        ∀ t : SelectorState,
          addListener (SelectorState.mk (List.replicate 64 ⟨0, 1, some 9, 0⟩))
            3 1 (some 5) 0 ≠ .ok t) :=
  ⟨by simp [kMaxPollFds], addListener_capacity _ 3 1 (some 5) 0 (by simp [kMaxPollFds])⟩

end JHCommon

namespace JHCommon

/-! ### Logging fatal-error macros (logging.h) -/

/-- A build configuration of logging.h: whether JH_VERBOSE_LOGGING and
JH_PRODUCTION_LOGGING are defined by the build. -/
structure BuildConfig where
  verboseDefined : Bool
  productionDefined : Bool
deriving DecidableEq

/-- Sanity check at logging.h lines 40-43: JH_VERBOSE_LOGGING is undefined when
JH_PRODUCTION_LOGGING is also defined, so verbose logging is in effect only
when verbose is defined and production is not. -/
def effectiveVerbose (c : BuildConfig) : Bool :=
  c.verboseDefined && !c.productionDefined

/-- The observable effect of expanding a fatal-error macro: does it log, and
does it abort the process. -/
structure FatalEffect where
  logs : Bool
  aborts : Bool
deriving DecidableEq

/-- LOG_ERR_FATAL (logging.h lines 477-497): without JH_VERBOSE_LOGGING it only
expands to LOG_ERR_PERROR, with JH_VERBOSE_LOGGING it also calls abort().
LOG_ERR_PERROR is JH_LOG_ALWAYS (line 535), which prints unless
JH_PRODUCTION_LOGGING is defined (lines 579-588). -/
def LOG_ERR_FATAL (c : BuildConfig) : FatalEffect :=
  { logs := !c.productionDefined, aborts := effectiveVerbose c }

/-- ASSERT_ERR (logging.h lines 484-489 and 499-505) applied to the value of
its condition: nothing happens when the condition holds; on a failed check it
logs via JH_LOG_ALWAYS, and calls abort() only under JH_VERBOSE_LOGGING. -/
def ASSERT_ERR (c : BuildConfig) (eval : Bool) : FatalEffect :=
  if eval then
    { logs := false, aborts := false }
  else
    { logs := !c.productionDefined, aborts := effectiveVerbose c }

/-- C8 counterexample.  In the build configuration with neither
JH_VERBOSE_LOGGING nor JH_PRODUCTION_LOGGING defined (the default release
build), a failed LOG_ERR_FATAL / ASSERT_ERR check logs but does not terminate
the process, refuting the claim that it terminates in every build
configuration. -/
theorem logErrFatal_no_abort_in_release :
    ¬((LOG_ERR_FATAL ⟨false, false⟩).logs = true ∧
        (LOG_ERR_FATAL ⟨false, false⟩).aborts = true) ∧
      (ASSERT_ERR ⟨false, false⟩ false).aborts = false := by
  decide

/-- C8 amended.  A failed LOG_ERR_FATAL / ASSERT_ERR check logs the error
exactly when JH_PRODUCTION_LOGGING is not defined, and terminates the process
exactly when verbose logging is in effect (JH_VERBOSE_LOGGING defined without
JH_PRODUCTION_LOGGING); a passed ASSERT_ERR check does nothing. -/
theorem logErrFatal_spec (c : BuildConfig) :
    (LOG_ERR_FATAL c).logs = !c.productionDefined ∧
      (LOG_ERR_FATAL c).aborts = effectiveVerbose c ∧
      ASSERT_ERR c false = LOG_ERR_FATAL c ∧
      ASSERT_ERR c true = ⟨false, false⟩ := by
  refine ⟨rfl, rfl, ?_, rfl⟩
  simp [ASSERT_ERR, LOG_ERR_FATAL]

/-! ### FdReaderWriter -/

/-- FdReaderWriter (FdReaderWriter.cpp lines 40-43): the wrapped descriptor and
the Selector currently set, a nullable pointer modelled by an `Option`
identity. -/
structure FdReaderWriter where
  mFd : Int
  mSelector : Option Nat
deriving DecidableEq

/-- A call made by FdReaderWriter on a Selector, identified by the selector it
is made on. -/
inductive SelCall
  | removeL (sel : Nat) (fd : Int) (listener : Nat)
  | addL (sel : Nat) (fd : Int) (events : Nat) (listener : Nat)
deriving DecidableEq

/-- FdReaderWriter::setSelector (FdReaderWriter.cpp lines 55-67).  If the
descriptor is valid and a previous selector was set, the listener is removed
from it; then mSelector is set to the new selector and, if non-null, the
listener is added to it for subEvents.  If the descriptor is -1 nothing
happens.  Returns the updated object and the Selector calls made, in order. -/
def setSelector (s : FdReaderWriter) (listener : Nat) (selector : Option Nat)
    (subEvents : Nat) : FdReaderWriter × List SelCall :=
  if s.mFd ≠ -1 then
    let removeCalls : List SelCall :=
      match s.mSelector with
      | some old => [SelCall.removeL old s.mFd listener]
      | none => []
    let addCalls : List SelCall :=
      match selector with
      | some newSel => [SelCall.addL newSel s.mFd subEvents listener]
      | none => []
    ({ s with mSelector := selector }, removeCalls ++ addCalls)
  else
    (s, [])

/-- The effect of one Selector call on the set of selectors (by identity) where
(fd, listener) is registered: removeListener removes every matching entry from
that selector, addListener registers one there. -/
def applyCall (fd : Int) (listener : Nat) (regs : List Nat) :
    SelCall → List Nat
  | SelCall.removeL sel f l =>
    if f = fd ∧ l = listener then regs.filter (fun x => x ≠ sel) else regs
  | SelCall.addL sel f _ l =>
    if f = fd ∧ l = listener then regs ++ [sel] else regs

/-- The set of selectors where (fd, listener) is registered after a sequence of
Selector calls. -/
def applyCalls (fd : Int) (listener : Nat) (regs : List Nat)
    (calls : List SelCall) : List Nat :=
  calls.foldl (applyCall fd listener) regs

/-- C9.  On an FdReaderWriter with a valid descriptor, setSelector removes the
listener from the previous selector (when one was set) before adding it to the
new non-null selector, updates mSelector to the new selector, and leaves the
listener registered with at most one Selector: if before the call it was
registered only with the previous selector, after the calls it is registered
only with the new one. -/
theorem setSelector_single_registration (s : FdReaderWriter) (listener : Nat)
    (selector : Option Nat) (subEvents : Nat) (regs : List Nat)
    (hfd : s.mFd ≠ -1)
    (hreg : ∀ x ∈ regs, s.mSelector = some x) :
    (setSelector s listener selector subEvents).1.mSelector = selector ∧
      (∀ old newSel, s.mSelector = some old → selector = some newSel →
        (setSelector s listener selector subEvents).2 =
          [SelCall.removeL old s.mFd listener,
            SelCall.addL newSel s.mFd subEvents listener]) ∧
      (∀ x ∈ applyCalls s.mFd listener regs
          (setSelector s listener selector subEvents).2,
        selector = some x) := by
  refine ⟨?_, ?_, ?_⟩
  · simp [setSelector, hfd]
  · intro old newSel hold hnew
    simp [setSelector, hfd, hold, hnew]
  · intro x hx
    simp only [setSelector, if_pos hfd] at hx
    cases hsel : s.mSelector with
    | none =>
      cases hnew : selector with
      | none =>
        simp only [hsel, hnew, applyCalls, List.foldl] at hx
        exact absurd (hreg x hx) (by simp [hsel])
      | some newSel =>
        simp only [hsel, hnew, applyCalls, List.foldl, applyCall,
          List.nil_append] at hx
        rw [if_pos (⟨trivial, trivial⟩ : True ∧ True)] at hx
        rcases List.mem_append.mp hx with hmem | hmem
        · exact absurd (hreg x hmem) (by simp [hsel])
        · simp only [List.mem_singleton] at hmem
          rw [hmem]
    | some old =>
      have hsub : ∀ y ∈ regs.filter (fun x => x ≠ old), False := by
        intro y hy
        have hmem := List.mem_filter.mp hy
        have := hreg y hmem.1
        rw [hsel] at this
        have hyo : y = old := by
          injection this with h0
          exact h0.symm
        simp [hyo] at hmem
      cases hnew : selector with
      | none =>
        simp only [hsel, hnew, applyCalls, List.foldl, applyCall,
          List.append_nil] at hx
        rw [if_pos (⟨trivial, trivial⟩ : True ∧ True)] at hx
        exact absurd hx (fun hmem => hsub x hmem)
      | some newSel =>
        simp only [hsel, hnew, applyCalls, List.foldl, applyCall] at hx
        rw [if_pos (⟨trivial, trivial⟩ : True ∧ True),
          if_pos (⟨trivial, trivial⟩ : True ∧ True)] at hx
        rcases List.mem_append.mp hx with hmem | hmem
        · exact absurd hmem (fun hmem => hsub x hmem)
        · simp only [List.mem_singleton] at hmem
          rw [hmem]

/-- Witness for C9: descriptor 4, listener 11, moving from selector 1 to
selector 2 with the listener initially registered only with selector 1. -/
theorem setSelector_single_registration_witness :
    (FdReaderWriter.mk 4 (some 1)).mFd ≠ -1 ∧
      (∀ x ∈ [1], (FdReaderWriter.mk 4 (some 1)).mSelector = some x) ∧
      ((setSelector (FdReaderWriter.mk 4 (some 1)) 11 (some 2) 1).1.mSelector =
          some 2 ∧
        (∀ old newSel,
          (FdReaderWriter.mk 4 (some 1)).mSelector = some old →
            (some 2 : Option Nat) = some newSel →
            (setSelector (FdReaderWriter.mk 4 (some 1)) 11 (some 2) 1).2 =
              [SelCall.removeL old 4 11, SelCall.addL newSel 4 1 11]) ∧
        (∀ x ∈ applyCalls 4 11 [1]
            (setSelector (FdReaderWriter.mk 4 (some 1)) 11 (some 2) 1).2,
          (some 2 : Option Nat) = some x)) :=
  ⟨by decide, by decide,
    setSelector_single_registration (FdReaderWriter.mk 4 (some 1)) 11 (some 2) 1
      [1] (by decide) (by decide)⟩

/-- C10.  On an FdReaderWriter whose descriptor is -1, setSelector leaves the
object unchanged, mSelector keeps its previous value, and no call is made on
any Selector. -/
theorem setSelector_invalid_fd_noop (s : FdReaderWriter) (listener : Nat)
    (selector : Option Nat) (subEvents : Nat) (h : s.mFd = -1) :
    setSelector s listener selector subEvents = (s, []) := by
  simp [setSelector, h]

/-- Witness for C10: descriptor -1, all state kept, no Selector calls. -/
theorem setSelector_invalid_fd_noop_witness :
    (FdReaderWriter.mk (-1) (some 3)).mFd = -1 ∧
      setSelector (FdReaderWriter.mk (-1) (some 3)) 11 (some 2) 1 =
        (FdReaderWriter.mk (-1) (some 3), []) :=
  ⟨rfl, setSelector_invalid_fd_noop (FdReaderWriter.mk (-1) (some 3)) 11
    (some 2) 1 rfl⟩

end JHCommon
